import Mathlib

/-!
Verification of the date/task core of the advent-calendar widget.

The embedding models:
* the proleptic Gregorian calendar (day numbers counted from 0000-01-01),
  which is the arithmetic underlying the ECMAScript `Date` object at
  midnight; local time is modeled with a fixed UTC offset and no DST, the
  setting in which the repository's own rationale ("avoid off-by-one day
  around midnight and DST" in `dateUtils.ts`) makes local and UTC field
  arithmetic coincide;
* strings as lists of characters, with a faithful model of
  `String.prototype.split("-")` and of `Number()` on the digit-string
  components such splitting produces;
* the date utilities `ymdLocal`, `parseYMDLocal`, `parseYMDStrict`,
  `getTaskDate`, `getDaysBetween`, `buildMonthDays` from
  `src/utils/dateUtils.ts`, and the generator pipeline
  `validateTasksAndDays`, `generateCalendarDays`, `getTaskForDay`,
  `getTaskForDate`, `updateCalendarDays` from
  `src/composables/useTokens.ts`.
-/

set_option maxHeartbeats 1000000
set_option maxRecDepth 8000

namespace AdventCalendar

/-- Strings are modeled as lists of characters. -/
abbrev JStr := List Char

/-! ## Proleptic Gregorian calendar -/

/-- Gregorian leap-year rule (ECMAScript `DaysInYear`). -/
def isLeap (y : Nat) : Bool := (y % 4 == 0 && y % 100 != 0) || y % 400 == 0

/-- Number of days in year `y`. -/
def daysInYear (y : Nat) : Nat := if isLeap y then 366 else 365

/-- Number of days in month `m` (1..12) of year `y`; 0 for out-of-range months. -/
def daysInMonth (y m : Nat) : Nat :=
  if m = 1 then 31 else if m = 2 then (if isLeap y then 29 else 28)
  else if m = 3 then 31 else if m = 4 then 30 else if m = 5 then 31
  else if m = 6 then 30 else if m = 7 then 31 else if m = 8 then 31
  else if m = 9 then 30 else if m = 10 then 31 else if m = 11 then 30
  else if m = 12 then 31 else 0

/-- Total days in months `1..m` of year `y`. -/
def monthsUpto (y : Nat) : Nat → Nat
  | 0 => 0
  | m + 1 => monthsUpto y m + daysInMonth y (m + 1)

/-- Days from 0000-01-01 up to January 1 of year `y` (closed Gregorian
formula; `daysToYear_succ` below recovers the year-by-year recurrence). -/
def daysToYear (y : Nat) : Nat :=
  365 * y + (y + 3) / 4 - (y + 99) / 100 + (y + 399) / 400

/-- Day number (days since 0000-01-01) of the calendar date `(y, m, d)`. -/
def dnOfCivil (y m d : Nat) : Nat := daysToYear y + monthsUpto y (m - 1) + (d - 1)

/-- The triple `(y, m, d)` is a real calendar date. -/
def ValidYMD (y m d : Nat) : Prop :=
  1 ≤ m ∧ m ≤ 12 ∧ 1 ≤ d ∧ d ≤ daysInMonth y m

instance (y m d : Nat) : Decidable (ValidYMD y m d) := by
  unfold ValidYMD; infer_instance

/-- Walk years upward from year `y`, consuming `n` remaining days;
returns the year reached and the remaining day-of-year. -/
def yearOf : Nat → Nat → Nat → Nat × Nat
  | 0, y, n => (y, n)
  | fuel + 1, y, n =>
    if n < daysInYear y then (y, n) else yearOf fuel (y + 1) (n - daysInYear y)

/-- Walk months of year `y` upward from month `m`, consuming `r` remaining
days; returns the month reached and the remaining day-of-month offset. -/
def monthOf : Nat → Nat → Nat → Nat → Nat × Nat
  | 0, _, m, r => (m, r)
  | fuel + 1, y, m, r =>
    if r < daysInMonth y m then (m, r) else monthOf fuel y (m + 1) (r - daysInMonth y m)

/-- Checkpoint to keep the year walk short for modern dates:
days from 0000-01-01 to 2000-01-01. -/
def yearBase (n : Nat) : Nat × Nat :=
  if 730485 ≤ n then (2000, n - 730485) else (0, n)

/-- Calendar date `(y, m, d)` of a day number (clamped at 0000-01-01; every
date reachable from the program's digit-string inputs lies far above it). -/
def civilOfDn (t : Int) : Nat × Nat × Nat :=
  let n := t.toNat
  let p := yearBase n
  let q := yearOf (p.2 + 1) p.1 p.2
  let r := monthOf 12 q.1 1 q.2
  (q.1, r.1, r.2 + 1)

/-! ## Strings and digits -/

/-- The character of a decimal digit. -/
def digitChar (n : Nat) : Char := Char.ofNat (48 + n)

/-- Digit expansion with structural fuel (the fuel only bounds the
recursion depth; `fuel = n` always suffices). -/
def natDigitsAux : Nat → Nat → List Char
  | 0, _ => []
  | fuel + 1, n =>
    if n < 10 then [digitChar n]
    else natDigitsAux fuel (n / 10) ++ [digitChar (n % 10)]

/-- Decimal digits of `n`, most significant first — the ECMAScript
`String(n)` for a natural number. -/
def natDigits (n : Nat) : JStr :=
  if n = 0 then ['0'] else natDigitsAux n n

/-- Model of `String(n).padStart(2, "0")`. -/
def pad2 (n : Nat) : JStr := if n < 10 then '0' :: natDigits n else natDigits n

/-- Model of `s.split("-")` on character lists. -/
def splitDash : JStr → List JStr
  | [] => [[]]
  | c :: rest =>
    if c = '-' then [] :: splitDash rest
    else
      match splitDash rest with
      | [] => [[c]]
      | g :: gs => (c :: g) :: gs

/-- Numeric value of a digit string (Horner evaluation, as `Number` computes
it for a decimal literal). -/
def digitsVal (cs : JStr) : Nat := cs.foldl (fun a c => 10 * a + (c.toNat - 48)) 0

/-- ECMAScript `Number()` on the component strings produced by splitting a
date string on `"-"`: the empty string converts to `0`, a pure digit string
to its decimal value, and anything else on this domain to NaN, modeled as
`none`.  (Exotic numeric literal forms — whitespace-padded, fractional,
hexadecimal — are outside the character domain this development quantifies
over.) -/
def jsNumber (cs : JStr) : Option Int :=
  if cs.isEmpty then some 0
  else if cs.all Char.isDigit then some ((digitsVal cs : Nat) : Int) else none

/-- The `YYYY-MM-DD` rendering of a date triple (year unpadded, month and
day two-digit padded): for years 1000..9999 this is exactly the
`\d{4}-\d{2}-\d{2}` form the configuration schema requires. -/
def mkYMD (y m d : Nat) : JStr := natDigits y ++ '-' :: (pad2 m ++ '-' :: pad2 d)

/-! ## ECMAScript `Date` model

A `Date` produced by this program is always a midnight date; it is
represented by its day number since 0000-01-01 (an `Int`), its timestamp
being that number times 86 400 000 ms at the modeled fixed UTC offset. -/

/-- ECMAScript `MakeDay(y, m, d)`: month overflow moves across years
(floor-division semantics), and the result is `Day(ym, mn) + d - 1`.
Every constructor argument reachable from this program's digit-string
inputs yields a year ≥ 98, so the `toNat` clamps are never hit. -/
def makeDay (y m0 d : Int) : Int :=
  let ym := y + Int.fdiv m0 12
  let mn := (Int.emod m0 12).toNat
  (dnOfCivil ym.toNat (mn + 1) 1 : Int) + d - 1

/-- Model of `new Date(y, m0, d)`: the constructor maps two-digit years 0..99 to
1900..1999 before `MakeDay`. -/
def jsNewDate (y m0 d : Int) : Int :=
  makeDay (if 0 ≤ y ∧ y ≤ 99 then y + 1900 else y) m0 d

/-- Model of `getFullYear()` (local fields at the modeled fixed offset). -/
def getFullYear (t : Int) : Nat := (civilOfDn t).1

/-- Model of `getMonth()`: 0-based month. -/
def getMonth (t : Int) : Nat := (civilOfDn t).2.1 - 1

/-- Model of `getDate()`: day of month. -/
def getDate (t : Int) : Nat := (civilOfDn t).2.2

/-- Model of `getDay()`: weekday, 0 = Sunday (0000-01-01 was a Saturday). -/
def getDay (t : Int) : Nat := (t.toNat + 6) % 7

/-- Model of `d.setDate(d.getDate() + k)`: re-runs `MakeDay` with the day field
shifted by `k` (used by `getTaskDate` and the generator's day loop). -/
def setDatePlus (t k : Int) : Int :=
  makeDay (getFullYear t) (getMonth t) ((getDate t : Int) + k)

/-! ## `src/utils/dateUtils.ts` -/

/-- The errors thrown by the date utilities and the generator; the source
throws `Error` objects whose messages interpolate exactly these data. -/
inductive JSError
  | invalidDateFormat (s : JStr)
  | noTasks
  | taskNotFound (i : Nat)
  deriving DecidableEq, Repr

/-- Model of `ymdLocal(d)`: `${y}-${m}-${day}` with `m`, `day` two-digit padded and
the year left unpadded (`String(y)`). -/
def ymdLocal (t : Int) : JStr :=
  natDigits (getFullYear t) ++ '-' :: (pad2 (getMonth t + 1) ++ '-' :: pad2 (getDate t))

/-- Model of `parseYMDLocal(s)`: split on `-`, require exactly three components none
of which `Number()` maps to NaN, then `new Date(y, m - 1, d)`. -/
def parseYMDLocal (s : JStr) : Except JSError Int :=
  match (splitDash s).map jsNumber with
  | [some y, some m, some d] => .ok (jsNewDate y (m - 1) d)
  | _ => .error (.invalidDateFormat s)

/-- Model of `getTaskDate(taskIndex, startDate)`: copy the parsed start and
`setDate(start.getDate() + taskIndex)`, then format. -/
def getTaskDate (taskIndex : Int) (startDate : JStr) : Except JSError JStr := do
  let start ← parseYMDLocal startDate
  .ok (ymdLocal (setDatePlus start taskIndex))

/-- The constant `1000 * 3600 * 24`. -/
def msPerDay : Int := 1000 * 3600 * 24

/-- Model of `Math.ceil(a / b)` on integer millisecond quantities. -/
def ceilDiv (a b : Int) : Int := -(Int.fdiv (-a) b)

/-- Model of `getDaysBetween(startDate, endDate)`:
`Math.ceil((end - start) / msPerDay) + 1`. -/
def getDaysBetween (startDate endDate : JStr) : Except JSError Int := do
  let s ← parseYMDLocal startDate
  let e ← parseYMDLocal endDate
  .ok (ceilDiv ((e - s) * msPerDay) msPerDay + 1)

/-- Model of `isToday(dateString)`: string equality against the ambient current
date, which is passed in already formatted (`ymdLocal(new Date())`). -/
def isTodayStr (today dateString : JStr) : Bool := dateString == today

/-- Model of `parseYMDStrict(s)`: as `parseYMDLocal` but returning `null` instead of
throwing, rejecting falsy (zero) components, and rejecting any input whose
constructed date's year/month/day fields differ from the input. -/
def parseYMDStrict (s : JStr) : Option Int :=
  match (splitDash s).map jsNumber with
  | [some y, some m, some d] =>
    if y = 0 ∨ m = 0 ∨ d = 0 then none
    else
      let date := jsNewDate y (m - 1) d
      if (getFullYear date : Int) = y ∧ (getMonth date : Int) = m - 1 ∧
         (getDate date : Int) = d then some date
      else none
  | _ => none

/-- Model of `makeTime(mode).getTaskDateByMode`: at the modeled fixed offset the
local and UTC field arithmetic coincide, so the mode flag selects between
equal implementations (it is retained to mirror the source's facade). -/
def getTaskDateByMode (_isUTC : Bool) (taskIndex : Int) (startDate : JStr) :
    Except JSError JStr := do
  let start ← parseYMDLocal startDate
  .ok (ymdLocal (setDatePlus start taskIndex))

/-- Model of `makeTime(mode).getDaysBetweenByMode`: `Math.floor` (not `ceil`) of the
normalized-midnight ms difference, plus one. -/
def getDaysBetweenByMode (_isUTC : Bool) (startDate endDate : JStr) :
    Except JSError Int := do
  let s ← parseYMDLocal startDate
  let e ← parseYMDLocal endDate
  .ok (Int.fdiv ((e - s) * msPerDay) msPerDay + 1)

/-- A cell of the weekday-aligned month grid (`buildMonthDays` returns a
union of placeholder records, which carry no date and no day number, and
real day records). -/
inductive MonthCell
  | placeholder (id : JStr)
  | realDay (id : JStr) (day : Nat) (date : JStr)
  deriving DecidableEq, Repr

/-- The id string `` `ph-${year}-${monthIndex}-${i}` ``. -/
def phId (year monthIndex i : Nat) : JStr :=
  'p' :: 'h' :: '-' :: (natDigits year ++ '-' :: (natDigits monthIndex ++ '-' :: natDigits i))

/-- The id string `` `${y}-${m}-${dd}` `` with `m = monthIndex + 1` and `dd` two-digit
padded. -/
def dateId (year monthIndex d : Nat) : JStr :=
  natDigits year ++ '-' :: (pad2 (monthIndex + 1) ++ '-' :: pad2 d)

/-- Model of `buildMonthDays(year, monthIndex, firstDayOfWeek)`: leading placeholder
cells aligning the first of the month to its weekday column, then one real
cell per day of the month (the month length is read off
`new Date(year, monthIndex + 1, 0).getDate()`). -/
def buildMonthDays (year monthIndex firstDayOfWeek : Nat) : List MonthCell :=
  let firstDate := jsNewDate year monthIndex 1
  let weekday := getDay firstDate
  let offset := (weekday + 7 - firstDayOfWeek) % 7
  let daysCount := getDate (jsNewDate year (monthIndex + 1) 0)
  ((List.range offset).map fun i => MonthCell.placeholder (phId year monthIndex i)) ++
    ((List.range daysCount).map fun k =>
      MonthCell.realDay (dateId year monthIndex (k + 1)) (k + 1)
        (dateId year monthIndex (k + 1)))

/-! ## `src/composables/useTokens.ts` -/

/-- Tasks are opaque content records; the date layer uses only their list
position (spec §3: "an opaque content unit identified by an ordinal
position in a list"), so they are modeled by their ordinal. -/
abbrev CalendarTask := Nat

/-- The `devWarn` diagnostics `validateTasksAndDays` can emit (the
informational `devLog` lines are not modeled). -/
inductive Diag
  | mismatchWarning (expectedDays : Int) (actualTasks : Nat)
  deriving DecidableEq, Repr

/-- A `CalendarDay` record as built by the generator. -/
structure CalendarDayR where
  id : Nat
  day : Nat
  date : JStr
  isActive : Bool
  isSelected : Bool
  isToday : Bool
  hasTask : Bool
  task : Option CalendarTask
  deriving DecidableEq, Repr

/-- Model of `validateTasksAndDays`: guarded by the module-level
`validationPerformed` flag (threaded explicitly); computes the expected day
count (which can throw a parse error), throws on zero tasks, and emits one
mismatch warning when counts differ. -/
def validateTasksAndDays (performed : Bool) (tasks : List CalendarTask)
    (startDate endDate : JStr) : Except JSError (Bool × List Diag) :=
  if performed then .ok (true, [])
  else do
    let expectedDays ← getDaysBetween startDate endDate
    if tasks.length = 0 then .error .noTasks
    else if (tasks.length : Int) ≠ expectedDays then
      .ok (true, [.mismatchWarning expectedDays tasks.length])
    else .ok (true, [])

/-- One day record as pushed by the generator's loop body. -/
def mkCalendarDay (today : JStr) (t : Int) (id : Nat) : CalendarDayR :=
  { id := id, day := getDate t, date := ymdLocal t, isActive := false,
    isSelected := false, isToday := isTodayStr today (ymdLocal t),
    hasTask := true, task := none }

/-- The generator's `while (currentDay <= endDate)` loop; each iteration
advances exactly one calendar day via `setDate(getDate() + 1)`, so the loop
runs at most `(endDate - startDate + 1)` times — the structural `fuel`
argument is instantiated with exactly that count. -/
def genLoop (today : JStr) : Nat → Int → Int → Nat → List CalendarDayR
  | 0, _, _, _ => []
  | fuel + 1, cur, e, id =>
    if cur ≤ e then
      mkCalendarDay today cur id :: genLoop today fuel (setDatePlus cur 1) e (id + 1)
    else []

/-- Model of `generateCalendarDays`: validate, parse the range, run the day loop. -/
def generateCalendarDays (today : JStr) (performed : Bool)
    (tasks : List CalendarTask) (startDate endDate : JStr) :
    Except JSError (Bool × List Diag × List CalendarDayR) := do
  let v ← validateTasksAndDays performed tasks startDate endDate
  let s ← parseYMDLocal startDate
  let e ← parseYMDLocal endDate
  .ok (v.1, v.2, genLoop today (e - s + 1).toNat s e 1)

/-- Model of `getTaskForDay(dayIndex, tasks)`: `tasks[dayIndex % tasks.length]`,
throwing when that is `undefined` (which only happens for an empty list,
where the JS index is `NaN`). -/
def getTaskForDay (dayIndex : Nat) : List CalendarTask → Except JSError CalendarTask
  | [] => .error (.taskNotFound dayIndex)
  | t :: ts =>
    .ok ((t :: ts).get ⟨dayIndex % (ts.length + 1), Nat.mod_lt _ (Nat.succ_pos _)⟩)

/-- Model of `getTaskForDate(date, tasks, config)`: day index as the floored ms
difference from `startDate` over one day; a task only for
`0 ≤ dayIndex < tasks.length`, with no wrap-around. -/
def getTaskForDate (date : JStr) (tasks : List CalendarTask) (startDate : JStr) :
    Except JSError (Option CalendarTask) := do
  let s ← parseYMDLocal startDate
  let t ← parseYMDLocal date
  let dayIndex := Int.fdiv ((t - s) * msPerDay) msPerDay
  if 0 ≤ dayIndex ∧ dayIndex < (tasks.length : Int) then .ok (tasks.get? dayIndex.toNat)
  else .ok none

/-- The `days.forEach((day, index) => ...)` body of `updateCalendarDays`:
attach the cyclic task, recompute `isActive` from the task date, force
`hasTask`. -/
def attachTasks (tasks : List CalendarTask) (startDate today : JStr) :
    Nat → List CalendarDayR → Except JSError (List CalendarDayR)
  | _, [] => .ok []
  | i, day :: rest => do
    let task ← getTaskForDay i tasks
    let taskDate ← getTaskDateByMode false (i : Int) startDate
    let rest2 ← attachTasks tasks startDate today (i + 1) rest
    .ok ({ day with
            hasTask := true
            isActive := isTodayStr today taskDate
            task := some task } :: rest2)

/-- Model of `updateCalendarDays`: generate the day records, then attach tasks and
active flags; publishes the result (modeled as returning it). -/
def updateCalendarDays (today : JStr) (performed : Bool)
    (tasks : List CalendarTask) (startDate endDate : JStr) :
    Except JSError (Bool × List Diag × List CalendarDayR) := do
  let g ← generateCalendarDays today performed tasks startDate endDate
  let days ← attachTasks tasks startDate today 0 g.2.2
  .ok (g.1, g.2.1, days)

/-- The inverse of `splitDash`: interleave the components with `'-'`. -/
def joinDash : List JStr → JStr
  | [] => []
  | [a] => a
  | a :: b :: rest => a ++ '-' :: joinDash (b :: rest)

/-! ## Claim theorems -/

instance {ε α : Type} [DecidableEq ε] [DecidableEq α] : DecidableEq (Except ε α) := fun a b =>
  match a, b with
  | .ok x, .ok y =>
    match decEq x y with
    | isTrue h => isTrue (h ▸ rfl)
    | isFalse h => isFalse fun hh => h (Except.ok.inj hh)
  | .error x, .error y =>
    match decEq x y with
    | isTrue h => isTrue (h ▸ rfl)
    | isFalse h => isFalse fun hh => h (Except.error.inj hh)
  | .ok _, .error _ => isFalse fun hh => Except.noConfusion hh
  | .error _, .ok _ => isFalse fun hh => Except.noConfusion hh

/-- The `\d{4}-\d{2}-\d{2}` full-string shape required by the spec for date
strings. -/
def shapeYMD : JStr → Bool
  | [c1, c2, c3, c4, h1, c5, c6, h2, c7, c8] =>
    c1.isDigit && c2.isDigit && c3.isDigit && c4.isDigit && (h1 == '-') &&
    c5.isDigit && c6.isDigit && (h2 == '-') && c7.isDigit && c8.isDigit
  | _ => false

/-! ## Theorems -/

/-! ### Correctness of the calendar conversion -/

theorem daysInYear_ge (y : Nat) : 365 ≤ daysInYear y := by
  unfold daysInYear; split <;> omega

theorem isLeap_iff (y : Nat) :
    isLeap y = true ↔ ((y % 4 = 0 ∧ ¬(y % 100 = 0)) ∨ y % 400 = 0) := by
  simp [isLeap]

theorem daysToYear_succ (y : Nat) :
    daysToYear (y + 1) = daysToYear y + daysInYear y := by
  unfold daysToYear daysInYear
  by_cases h : isLeap y = true
  · rw [if_pos h]
    rw [isLeap_iff] at h
    omega
  · rw [if_neg h]
    rw [isLeap_iff] at h
    push_neg at h
    omega

theorem daysInMonth_pos (y m : Nat) (h1 : 1 ≤ m) (h2 : m ≤ 12) :
    1 ≤ daysInMonth y m := by
  unfold daysInMonth
  interval_cases m <;> simp <;> (first | omega | (split <;> omega))

theorem daysInMonth_eq_zero (y m : Nat) (h : 13 ≤ m) : daysInMonth y m = 0 := by
  unfold daysInMonth
  repeat rw [if_neg (by omega)]

theorem monthsUpto_twelve (y : Nat) : monthsUpto y 12 = daysInYear y := by
  by_cases h : isLeap y = true <;>
    simp [monthsUpto, daysInMonth, daysInYear, h]

theorem monthsUpto_succ (y m : Nat) (h : 1 ≤ m) :
    monthsUpto y m = monthsUpto y (m - 1) + daysInMonth y m := by
  conv_lhs => rw [show m = (m - 1) + 1 by omega]
  rw [monthsUpto, show (m - 1) + 1 = m by omega]

theorem monthsUpto_le (y : Nat) {a b : Nat} (h : a ≤ b) :
    monthsUpto y a ≤ monthsUpto y b := by
  induction b with
  | zero =>
    have : a = 0 := by omega
    subst this; exact le_refl _
  | succ b ih =>
    rcases Nat.lt_or_ge a (b + 1) with hlt | hge
    · exact le_trans (ih (by omega)) (Nat.le_add_right _ _)
    · have : a = b + 1 := by omega
      subst this; exact le_refl _

theorem monthsUpto_stable (y m : Nat) (h : 12 ≤ m) :
    monthsUpto y m = monthsUpto y 12 := by
  induction m with
  | zero => omega
  | succ m ih =>
    rcases Nat.lt_or_ge m 12 with hlt | hge
    · have : m = 11 := by omega
      subst this; rfl
    · rw [monthsUpto, ih hge, daysInMonth_eq_zero y _ (by omega)]
      omega

theorem daysToYear_mono {a b : Nat} (h : a ≤ b) : daysToYear a ≤ daysToYear b := by
  induction b with
  | zero =>
    have : a = 0 := by omega
    subst this; exact le_refl _
  | succ b ih =>
    rcases Nat.lt_or_ge a (b + 1) with hlt | hge
    · have h1 := ih (by omega)
      have h2 := daysToYear_succ b
      have h3 := daysInYear_ge b
      omega
    · have : a = b + 1 := by omega
      subst this; exact le_refl _

theorem yearOf_correct (fuel : Nat) :
    ∀ y n, n < 365 * (fuel + 1) →
      daysToYear (yearOf fuel y n).1 + (yearOf fuel y n).2 = daysToYear y + n ∧
      (yearOf fuel y n).2 < daysInYear (yearOf fuel y n).1 := by
  induction fuel with
  | zero =>
    intro y n h
    have h365 := daysInYear_ge y
    refine ⟨rfl, ?_⟩
    show n < daysInYear y
    omega
  | succ fuel ih =>
    intro y n h
    by_cases hn : n < daysInYear y
    · have heq : yearOf (fuel + 1) y n = (y, n) := by
        simp [yearOf, hn]
      rw [heq]
      exact ⟨rfl, hn⟩
    · have hge : daysInYear y ≤ n := by omega
      have h365 := daysInYear_ge y
      have heq : yearOf (fuel + 1) y n = yearOf fuel (y + 1) (n - daysInYear y) := by
        simp [yearOf, hn]
      rw [heq]
      have hrec := ih (y + 1) (n - daysInYear y) (by omega)
      refine ⟨?_, hrec.2⟩
      rw [hrec.1, daysToYear_succ]
      omega

theorem monthOf_correct (fuel : Nat) :
    ∀ (y m r : Nat), 1 ≤ m → 13 ≤ m + fuel →
      monthsUpto y (m - 1) + r < daysInYear y →
      monthsUpto y ((monthOf fuel y m r).1 - 1) + (monthOf fuel y m r).2 =
        monthsUpto y (m - 1) + r ∧
      (monthOf fuel y m r).2 < daysInMonth y (monthOf fuel y m r).1 ∧
      1 ≤ (monthOf fuel y m r).1 ∧ (monthOf fuel y m r).1 ≤ 12 := by
  induction fuel with
  | zero =>
    intro y m r hm hfuel hbound
    exfalso
    have h13 : 13 ≤ m := by omega
    have : monthsUpto y 12 ≤ monthsUpto y (m - 1) := by
      rw [monthsUpto_stable y (m - 1) (by omega)]
    rw [monthsUpto_twelve] at this
    omega
  | succ fuel ih =>
    intro y m r hm hfuel hbound
    by_cases hr : r < daysInMonth y m
    · have heq : monthOf (fuel + 1) y m r = (m, r) := by
        simp [monthOf, hr]
      rw [heq]
      refine ⟨rfl, hr, hm, ?_⟩
      by_contra hge
      have : daysInMonth y m = 0 := daysInMonth_eq_zero y m (by omega)
      omega
    · have hge : daysInMonth y m ≤ r := by omega
      have heq : monthOf (fuel + 1) y m r = monthOf fuel y (m + 1) (r - daysInMonth y m) := by
        simp [monthOf, hr]
      rw [heq]
      have hstep : monthsUpto y ((m + 1) - 1) = monthsUpto y (m - 1) + daysInMonth y m := by
        rw [show (m + 1) - 1 = m by omega]
        exact monthsUpto_succ y m hm
      have hrec := ih y (m + 1) (r - daysInMonth y m) (by omega) (by omega)
        (by rw [hstep]; omega)
      refine ⟨?_, hrec.2.1, hrec.2.2.1, hrec.2.2.2⟩
      rw [hrec.1, hstep]; omega

theorem daysToYear_year2000 : daysToYear 2000 = 730485 := by decide

theorem yearBase_correct (n : Nat) :
    daysToYear (yearBase n).1 + (yearBase n).2 = n := by
  unfold yearBase
  split
  · dsimp only
    rw [daysToYear_year2000]
    omega
  · dsimp only
    have h0 : daysToYear 0 = 0 := rfl
    rw [h0]
    omega

/-- The conversion from day numbers to calendar dates is a right inverse of
`dnOfCivil`, and always produces a real calendar date. -/
theorem civilOfDn_correct (n : Nat) :
    dnOfCivil (civilOfDn (n : Int)).1 (civilOfDn (n : Int)).2.1 (civilOfDn (n : Int)).2.2 = n ∧
    ValidYMD (civilOfDn (n : Int)).1 (civilOfDn (n : Int)).2.1 (civilOfDn (n : Int)).2.2 := by
  have hton : ((n : Int)).toNat = n := Int.toNat_ofNat n
  have hyb := yearBase_correct n
  obtain ⟨b1, b2, hb⟩ : ∃ a b, yearBase n = (a, b) := ⟨_, _, rfl⟩
  rw [hb] at hyb
  dsimp only at hyb
  have hy := yearOf_correct (b2 + 1) b1 b2 (by omega)
  obtain ⟨Y, doy, hY⟩ : ∃ a b, yearOf (b2 + 1) b1 b2 = (a, b) := ⟨_, _, rfl⟩
  rw [hY] at hy
  dsimp only at hy
  have hm := monthOf_correct 12 Y 1 doy (by omega) (by omega)
    (by simpa [monthsUpto] using hy.2)
  obtain ⟨M, rr, hM⟩ : ∃ a b, monthOf 12 Y 1 doy = (a, b) := ⟨_, _, rfl⟩
  rw [hM] at hm
  dsimp only at hm
  have hciv : civilOfDn (n : Int) = (Y, M, rr + 1) := by
    simp only [civilOfDn, hton, hb, hY, hM]
  rw [hciv]
  dsimp only
  constructor
  · unfold dnOfCivil
    have h1 : monthsUpto Y (M - 1) + rr = doy := by
      simpa [monthsUpto] using hm.1
    omega
  · exact ⟨hm.2.2.1, hm.2.2.2, by omega, by omega⟩

/-- Day numbers of valid dates are bounded by the enclosing year. -/
theorem dnOfCivil_lt_next_year (y m d : Nat) (h : ValidYMD y m d) :
    daysToYear y ≤ dnOfCivil y m d ∧ dnOfCivil y m d < daysToYear (y + 1) := by
  obtain ⟨hm1, hm2, hd1, hd2⟩ := h
  constructor
  · unfold dnOfCivil; omega
  · unfold dnOfCivil
    have hup := monthsUpto_succ y m hm1
    have hle : monthsUpto y m ≤ monthsUpto y 12 := monthsUpto_le y (by omega)
    rw [monthsUpto_twelve] at hle
    show daysToYear y + monthsUpto y (m - 1) + (d - 1) < daysToYear (y + 1)
    rw [daysToYear_succ]
    omega

/-- The map `dnOfCivil` is injective on valid dates. -/
theorem dnOfCivil_inj {y m d Y M D : Nat} (h1 : ValidYMD y m d) (h2 : ValidYMD Y M D)
    (heq : dnOfCivil y m d = dnOfCivil Y M D) : y = Y ∧ m = M ∧ d = D := by
  have b1 := dnOfCivil_lt_next_year y m d h1
  have b2 := dnOfCivil_lt_next_year Y M D h2
  have hyY : y = Y := by
    by_contra hne
    rcases Nat.lt_or_ge y Y with hlt | hge
    · have := daysToYear_mono (show y + 1 ≤ Y by omega)
      omega
    · have hYy : Y < y := by omega
      have := daysToYear_mono (show Y + 1 ≤ y by omega)
      omega
  subst hyY
  have hmrest : monthsUpto y (m - 1) + (d - 1) = monthsUpto y (M - 1) + (D - 1) := by
    unfold dnOfCivil at heq; omega
  obtain ⟨hm1, hm2, hd1, hd2⟩ := h1
  obtain ⟨hM1, hM2, hD1, hD2⟩ := h2
  have hupm := monthsUpto_succ y m hm1
  have hupM := monthsUpto_succ y M hM1
  have hmM : m = M := by
    by_contra hne
    rcases Nat.lt_or_ge m M with hlt | hge
    · have := monthsUpto_le y (show m ≤ M - 1 by omega)
      omega
    · have hMm : M < m := by omega
      have := monthsUpto_le y (show M ≤ m - 1 by omega)
      omega
  subst hmM
  exact ⟨rfl, rfl, by omega⟩

/-- Left-inverse: converting a valid date to its day number and back is the
identity. -/
theorem civilOfDn_dnOfCivil (y m d : Nat) (h : ValidYMD y m d) :
    civilOfDn ((dnOfCivil y m d : Nat) : Int) = (y, m, d) := by
  obtain ⟨hinv, hvalid⟩ := civilOfDn_correct (dnOfCivil y m d)
  obtain ⟨hy, hm, hd⟩ := dnOfCivil_inj hvalid h hinv
  calc civilOfDn ((dnOfCivil y m d : Nat) : Int)
      = ((civilOfDn ((dnOfCivil y m d : Nat) : Int)).1,
         (civilOfDn ((dnOfCivil y m d : Nat) : Int)).2.1,
         (civilOfDn ((dnOfCivil y m d : Nat) : Int)).2.2) := rfl
    _ = (y, m, d) := by rw [hy, hm, hd]

/-! ## String-layer lemmas -/

theorem digitChar_toNat (d : Nat) (h : d < 10) : (digitChar d).toNat = 48 + d := by
  interval_cases d <;> decide

theorem digitChar_isDigit (d : Nat) (h : d < 10) : (digitChar d).isDigit = true := by
  interval_cases d <;> decide

theorem digitChar_ne_dash (d : Nat) (h : d < 10) : digitChar d ≠ '-' := by
  interval_cases d <;> decide

theorem isDigit_ne_dash (c : Char) (h : c.isDigit = true) : c ≠ '-' := by
  intro e
  subst e
  exact absurd h (by decide)

theorem natDigitsAux_spec (fuel : Nat) :
    ∀ n a, n < 10 ^ fuel → 1 ≤ fuel →
      List.foldl (fun acc c => 10 * acc + (c.toNat - 48)) a (natDigitsAux fuel n)
          = a * 10 ^ (natDigitsAux fuel n).length + n ∧
      1 ≤ (natDigitsAux fuel n).length ∧
      ∀ c ∈ natDigitsAux fuel n, c.isDigit = true := by
  induction fuel with
  | zero => intro n a h hf; omega
  | succ fuel ih =>
    intro n a h hf
    by_cases hn : n < 10
    · have heq : natDigitsAux (fuel + 1) n = [digitChar n] := by
        simp [natDigitsAux, hn]
      rw [heq]
      refine ⟨?_, by simp, ?_⟩
      · simp only [List.foldl_cons, List.foldl_nil, List.length_cons, List.length_nil,
          digitChar_toNat n hn, pow_one, pow_zero]
        omega
      · intro c hc
        rcases List.mem_singleton.mp hc with rfl
        exact digitChar_isDigit n hn
    · have heq : natDigitsAux (fuel + 1) n =
          natDigitsAux fuel (n / 10) ++ [digitChar (n % 10)] := by
        simp [natDigitsAux, hn]
      rw [heq]
      have hfuel1 : 1 ≤ fuel := by
        rcases Nat.eq_zero_or_pos fuel with hz | hp
        · subst hz
          have h10 : (10 : Nat) ^ (0 + 1) = 10 := by norm_num
          rw [h10] at h
          omega
        · omega
      have hdiv : n / 10 < 10 ^ fuel := by
        have h10 : (10 : Nat) ^ (fuel + 1) = 10 ^ fuel * 10 := pow_succ 10 fuel
        omega
      obtain ⟨hfold, hlen, hdig⟩ := ih (n / 10) a hdiv hfuel1
      refine ⟨?_, by simp, ?_⟩
      · rw [List.foldl_append, hfold]
        simp only [List.foldl_cons, List.foldl_nil, List.length_append,
          List.length_cons, List.length_nil, digitChar_toNat (n % 10) (by omega)]
        have hmod : 48 + n % 10 - 48 = n % 10 := by omega
        rw [hmod]
        have hsplit : n = 10 * (n / 10) + n % 10 := (Nat.div_add_mod n 10).symm ▸ by omega
        rw [pow_add, pow_one]
        ring_nf
        omega
      · intro c hc
        rcases List.mem_append.mp hc with hc1 | hc2
        · exact hdig c hc1
        · rcases List.mem_singleton.mp hc2 with rfl
          exact digitChar_isDigit (n % 10) (by omega)

theorem digitsVal_natDigits (n : Nat) : digitsVal (natDigits n) = n := by
  by_cases h : n = 0
  · subst h; decide
  · unfold natDigits digitsVal
    rw [if_neg h]
    have hlt : n < 10 ^ n := Nat.lt_pow_self (by norm_num) n
    obtain ⟨hfold, _, _⟩ := natDigitsAux_spec n n 0 hlt (by omega)
    rw [hfold]
    omega

theorem natDigits_all_digits (n : Nat) : ∀ c ∈ natDigits n, c.isDigit = true := by
  intro c hc
  unfold natDigits at hc
  by_cases h : n = 0
  · rw [if_pos h] at hc
    rcases List.mem_singleton.mp hc with rfl
    decide
  · rw [if_neg h] at hc
    have hlt : n < 10 ^ n := Nat.lt_pow_self (by norm_num) n
    obtain ⟨_, _, hdig⟩ := natDigitsAux_spec n n 0 hlt (by omega)
    exact hdig c hc

theorem natDigits_ne_nil (n : Nat) : natDigits n ≠ [] := by
  unfold natDigits
  by_cases h : n = 0
  · rw [if_pos h]; simp
  · rw [if_neg h]
    have hlt : n < 10 ^ n := Nat.lt_pow_self (by norm_num) n
    obtain ⟨_, hlen, _⟩ := natDigitsAux_spec n n 0 hlt (by omega)
    intro he
    rw [he] at hlen
    simp at hlen

theorem natDigits_no_dash (n : Nat) : '-' ∉ natDigits n := by
  intro hm
  exact isDigit_ne_dash '-' (natDigits_all_digits n '-' hm) rfl

theorem pad2_all_digits (n : Nat) : ∀ c ∈ pad2 n, c.isDigit = true := by
  intro c hc
  unfold pad2 at hc
  by_cases h : n < 10
  · rw [if_pos h] at hc
    rcases List.mem_cons.mp hc with rfl | hc2
    · decide
    · exact natDigits_all_digits n c hc2
  · rw [if_neg h] at hc
    exact natDigits_all_digits n c hc

theorem pad2_ne_nil (n : Nat) : pad2 n ≠ [] := by
  unfold pad2
  by_cases h : n < 10
  · rw [if_pos h]; simp
  · rw [if_neg h]; exact natDigits_ne_nil n

theorem pad2_no_dash (n : Nat) : '-' ∉ pad2 n := by
  intro hm
  exact isDigit_ne_dash '-' (pad2_all_digits n '-' hm) rfl

theorem digitsVal_pad2 (n : Nat) : digitsVal (pad2 n) = digitsVal (natDigits n) := by
  unfold pad2
  by_cases h : n < 10
  · rw [if_pos h]
    show List.foldl _ (10 * 0 + ('0'.toNat - 48)) (natDigits n) = _
    rfl
  · rw [if_neg h]

theorem jsNumber_of_digits (cs : JStr) (hne : cs ≠ [])
    (hdig : ∀ c ∈ cs, c.isDigit = true) : jsNumber cs = some ((digitsVal cs : Nat) : Int) := by
  unfold jsNumber
  rw [if_neg (by simpa [List.isEmpty_iff] using hne), if_pos (by simpa [List.all_eq_true] using hdig)]

theorem jsNumber_natDigits (n : Nat) : jsNumber (natDigits n) = some (n : Int) := by
  rw [jsNumber_of_digits _ (natDigits_ne_nil n) (natDigits_all_digits n),
    digitsVal_natDigits]

theorem jsNumber_pad2 (n : Nat) : jsNumber (pad2 n) = some (n : Int) := by
  rw [jsNumber_of_digits _ (pad2_ne_nil n) (pad2_all_digits n), digitsVal_pad2,
    digitsVal_natDigits]

theorem splitDash_no_dash (a : JStr) (h : '-' ∉ a) : splitDash a = [a] := by
  induction a with
  | nil => rfl
  | cons c rest ih =>
    have hc : ¬(c = '-') := fun e => h (by simp [e])
    have hrest : '-' ∉ rest := fun hm => h (List.mem_cons_of_mem c hm)
    simp only [splitDash, if_neg hc, ih hrest]

theorem splitDash_append (a rest : JStr) (h : '-' ∉ a) :
    splitDash (a ++ '-' :: rest) = a :: splitDash rest := by
  induction a with
  | nil => simp [splitDash]
  | cons c tl ih =>
    have hc : ¬(c = '-') := fun e => h (by simp [e])
    have htl : '-' ∉ tl := fun hm => h (List.mem_cons_of_mem c hm)
    show splitDash (c :: (tl ++ '-' :: rest)) = (c :: tl) :: splitDash rest
    simp only [splitDash, if_neg hc]
    rw [ih htl]

theorem splitDash_ne_nil (s : JStr) : splitDash s ≠ [] := by
  induction s with
  | nil => simp [splitDash]
  | cons c rest ih =>
    simp only [splitDash]
    by_cases hc : c = '-'
    · rw [if_pos hc]; simp
    · rw [if_neg hc]
      obtain ⟨g, gs, hg⟩ := List.exists_cons_of_ne_nil ih
      rw [hg]
      simp

theorem splitDash_components_no_dash (s : JStr) : ∀ g ∈ splitDash s, '-' ∉ g := by
  induction s with
  | nil =>
    intro g hg
    simp [splitDash] at hg
    subst hg; simp
  | cons c rest ih =>
    intro g hg
    simp only [splitDash] at hg
    by_cases hc : c = '-'
    · rw [if_pos hc] at hg
      rcases List.mem_cons.mp hg with rfl | hg2
      · simp
      · exact ih g hg2
    · rw [if_neg hc] at hg
      obtain ⟨g0, gs, hgs⟩ := List.exists_cons_of_ne_nil (splitDash_ne_nil rest)
      rw [hgs] at hg
      simp only at hg
      rcases List.mem_cons.mp hg with rfl | hg2
      · intro hm
        rcases List.mem_cons.mp hm with e | hm2
        · exact hc e.symm
        · exact ih g0 (by rw [hgs]; exact List.mem_cons_self g0 gs) hm2
      · exact ih g (by rw [hgs]; exact List.mem_cons_of_mem g0 hg2)

theorem joinDash_cons_cons (c : Char) (g : JStr) (gs : List JStr) :
    joinDash ((c :: g) :: gs) = c :: joinDash (g :: gs) := by
  cases gs with
  | nil => rfl
  | cons b rest => rfl

theorem joinDash_splitDash (s : JStr) : joinDash (splitDash s) = s := by
  induction s with
  | nil => rfl
  | cons c rest ih =>
    simp only [splitDash]
    by_cases hc : c = '-'
    · rw [if_pos hc]
      obtain ⟨g, gs, hgs⟩ := List.exists_cons_of_ne_nil (splitDash_ne_nil rest)
      rw [hgs]
      show [] ++ '-' :: joinDash (g :: gs) = c :: rest
      rw [hc, ← hgs, ih]
      rfl
    · rw [if_neg hc]
      obtain ⟨g, gs, hgs⟩ := List.exists_cons_of_ne_nil (splitDash_ne_nil rest)
      rw [hgs]
      simp only
      rw [joinDash_cons_cons, ← hgs, ih]

/-! ## Date-operation lemmas -/

theorem ceilDiv_mul_cancel (a : Int) : ceilDiv (a * msPerDay) msPerDay = a := by
  unfold ceilDiv msPerDay
  rw [show -(a * (1000 * 3600 * 24)) = (-a) * (1000 * 3600 * 24) by ring]
  rw [Int.mul_fdiv_cancel _ (by norm_num)]
  ring

theorem fdiv_mul_cancel (a : Int) : (a * msPerDay).fdiv msPerDay = a := by
  unfold msPerDay
  exact Int.mul_fdiv_cancel a (by norm_num)

theorem dnOfCivil_day (y m d : Nat) (hd : 1 ≤ d) :
    (dnOfCivil y m d : Int) = (dnOfCivil y m 1 : Int) + d - 1 := by
  unfold dnOfCivil
  omega

theorem makeDay_eq (y m : Nat) (d : Int) (hm1 : 1 ≤ m) (hm2 : m ≤ 12) :
    makeDay (y : Int) ((m : Int) - 1) d = (dnOfCivil y m 1 : Int) + d - 1 := by
  have h0 : (0 : Int) ≤ (m : Int) - 1 := by omega
  have hlt : (m : Int) - 1 < 12 := by omega
  have hfd : Int.fdiv ((m : Int) - 1) 12 = 0 := by
    rw [Int.fdiv_eq_ediv _ (by norm_num)]
    exact Int.ediv_eq_zero_of_lt h0 hlt
  have hem : ((m : Int) - 1).emod 12 = (m : Int) - 1 := Int.emod_eq_of_lt h0 hlt
  simp only [makeDay, hfd, hem, add_zero, Int.toNat_ofNat]
  rw [show (((m : Int) - 1)).toNat + 1 = m by omega]

theorem jsNewDate_eq (y m : Nat) (d : Int) (hy : 100 ≤ y) (hm1 : 1 ≤ m) (hm2 : m ≤ 12) :
    jsNewDate (y : Int) ((m : Int) - 1) d = (dnOfCivil y m 1 : Int) + d - 1 := by
  unfold jsNewDate
  rw [if_neg (by omega)]
  exact makeDay_eq y m d hm1 hm2

theorem getFullYear_dn (y m d : Nat) (h : ValidYMD y m d) :
    getFullYear ((dnOfCivil y m d : Nat) : Int) = y := by
  unfold getFullYear
  rw [civilOfDn_dnOfCivil y m d h]

theorem getMonth_dn (y m d : Nat) (h : ValidYMD y m d) :
    getMonth ((dnOfCivil y m d : Nat) : Int) = m - 1 := by
  unfold getMonth
  rw [civilOfDn_dnOfCivil y m d h]

theorem getDate_dn (y m d : Nat) (h : ValidYMD y m d) :
    getDate ((dnOfCivil y m d : Nat) : Int) = d := by
  unfold getDate
  rw [civilOfDn_dnOfCivil y m d h]

/-- A `setDate(getDate() + k)` call moves a midnight date by exactly `k` days. -/
theorem setDatePlus_eq (t k : Int) (ht : 0 ≤ t) : setDatePlus t k = t + k := by
  obtain ⟨n, rfl⟩ : ∃ n : Nat, t = (n : Int) := ⟨t.toNat, by omega⟩
  obtain ⟨hdn, hvalid⟩ := civilOfDn_correct n
  obtain ⟨Y, M, D, hc⟩ : ∃ a b c, civilOfDn ((n : Nat) : Int) = (a, b, c) := ⟨_, _, _, rfl⟩
  rw [hc] at hdn hvalid
  dsimp only at hdn hvalid
  obtain ⟨hm1, hm2, hd1, hd2⟩ := hvalid
  unfold setDatePlus getFullYear getMonth getDate
  rw [hc]
  dsimp only
  rw [show ((M - 1 : Nat) : Int) = (M : Int) - 1 by omega]
  rw [makeDay_eq _ _ _ hm1 hm2]
  have hday := dnOfCivil_day Y M D hd1
  omega

theorem ymdLocal_dnOfCivil (y m d : Nat) (h : ValidYMD y m d) :
    ymdLocal ((dnOfCivil y m d : Nat) : Int) = mkYMD y m d := by
  obtain ⟨hm1, hm2, hd1, hd2⟩ := h
  unfold ymdLocal mkYMD
  rw [getFullYear_dn y m d ⟨hm1, hm2, hd1, hd2⟩, getMonth_dn y m d ⟨hm1, hm2, hd1, hd2⟩,
    getDate_dn y m d ⟨hm1, hm2, hd1, hd2⟩]
  rw [show m - 1 + 1 = m by omega]

theorem parseYMDLocal_mkYMD (y m d : Nat) :
    parseYMDLocal (mkYMD y m d) = .ok (jsNewDate (y : Int) ((m : Int) - 1) (d : Int)) := by
  unfold parseYMDLocal mkYMD
  rw [splitDash_append _ _ (natDigits_no_dash y), splitDash_append _ _ (pad2_no_dash m),
    splitDash_no_dash _ (pad2_no_dash d)]
  simp only [List.map_cons, List.map_nil, jsNumber_natDigits, jsNumber_pad2]

theorem parseYMDLocal_mkYMD_valid (y m d : Nat) (h : ValidYMD y m d) (hy : 100 ≤ y) :
    parseYMDLocal (mkYMD y m d) = .ok ((dnOfCivil y m d : Nat) : Int) := by
  rw [parseYMDLocal_mkYMD, jsNewDate_eq y m (d : Int) hy h.1 h.2.1]
  have hday := dnOfCivil_day y m d h.2.2.1
  congr 1
  omega

/-! ## Generator-pipeline lemmas -/

theorem getTaskDateByMode_ok (u : Bool) (i : Int) (startDate : JStr) (t0 : Int)
    (hp : parseYMDLocal startDate = .ok t0) :
    getTaskDateByMode u i startDate = .ok (ymdLocal (setDatePlus t0 i)) := by
  unfold getTaskDateByMode
  rw [hp]
  rfl

theorem getTaskDate_ok (i : Int) (startDate : JStr) (t0 : Int)
    (hp : parseYMDLocal startDate = .ok t0) :
    getTaskDate i startDate = .ok (ymdLocal (setDatePlus t0 i)) := by
  unfold getTaskDate
  rw [hp]
  rfl

theorem getDaysBetween_ok (sD eD : JStr) (s e : Int)
    (hs : parseYMDLocal sD = .ok s) (he : parseYMDLocal eD = .ok e) :
    getDaysBetween sD eD = .ok (e - s + 1) := by
  unfold getDaysBetween
  rw [hs, he]
  show Except.ok (ceilDiv ((e - s) * msPerDay) msPerDay + 1) = _
  rw [ceilDiv_mul_cancel]

theorem getDaysBetweenByMode_ok (u : Bool) (sD eD : JStr) (s e : Int)
    (hs : parseYMDLocal sD = .ok s) (he : parseYMDLocal eD = .ok e) :
    getDaysBetweenByMode u sD eD = .ok (e - s + 1) := by
  unfold getDaysBetweenByMode
  rw [hs, he]
  show Except.ok ((( e - s) * msPerDay).fdiv msPerDay + 1) = _
  rw [fdiv_mul_cancel]

theorem validateTasksAndDays_fresh (tasks : List CalendarTask) (sD eD : JStr) (s e : Int)
    (hs : parseYMDLocal sD = .ok s) (he : parseYMDLocal eD = .ok e) (hT : tasks ≠ []) :
    validateTasksAndDays false tasks sD eD =
      .ok (true, if (tasks.length : Int) = e - s + 1 then []
                 else [.mismatchWarning (e - s + 1) tasks.length]) := by
  unfold validateTasksAndDays
  rw [if_neg (by simp)]
  rw [getDaysBetween_ok sD eD s e hs he]
  show (if tasks.length = 0 then _ else _) = _
  rw [if_neg (by simpa using hT)]
  by_cases hc : (tasks.length : Int) = e - s + 1
  · rw [if_neg (by omega), if_pos hc]
  · rw [if_pos (by omega), if_neg hc]

theorem validateTasksAndDays_empty (sD eD : JStr) (s e : Int)
    (hs : parseYMDLocal sD = .ok s) (he : parseYMDLocal eD = .ok e) :
    validateTasksAndDays false [] sD eD = .error .noTasks := by
  unfold validateTasksAndDays
  rw [if_neg (by simp)]
  rw [getDaysBetween_ok sD eD s e hs he]
  rfl

theorem genLoop_spec (today : JStr) :
    ∀ (f : Nat) (s e : Int) (id : Nat), 0 ≤ s → (e - s + 1).toNat ≤ f →
      genLoop today f s e id =
        (List.range (e - s + 1).toNat).map
          (fun i : Nat => mkCalendarDay today (s + (i : Int)) (id + i)) := by
  intro f
  induction f with
  | zero =>
    intro s e id hs hf
    have h0 : (e - s + 1).toNat = 0 := by omega
    rw [h0]
    rfl
  | succ f ih =>
    intro s e id hs hf
    by_cases hle : s ≤ e
    · have hn : (e - s + 1).toNat = (e - (s + 1) + 1).toNat + 1 := by omega
      simp only [genLoop, if_pos hle]
      rw [setDatePlus_eq s 1 hs]
      rw [ih (s + 1) e (id + 1) (by omega) (by omega)]
      rw [hn, List.range_succ_eq_map]
      simp only [List.map_cons, List.map_map]
      congr 1
      · rw [show s + ((0 : Nat) : Int) = s by norm_num, Nat.add_zero]
      · apply List.map_congr_left
        intro i _
        show mkCalendarDay today (s + 1 + (i : Int)) (id + 1 + i) = _
        have e1 : s + 1 + (i : Int) = s + ((i + 1 : Nat) : Int) := by omega
        have e2 : id + 1 + i = id + (i + 1) := by omega
        rw [e1, e2]
        rfl
    · have hn : (e - s + 1).toNat = 0 := by omega
      rw [hn]
      simp only [genLoop, if_neg hle]
      rfl

theorem bind_ok_reduce {α β : Type} (a : α) (f : α → Except JSError β) :
    (Except.ok a >>= f) = f a := rfl

theorem getTaskForDay_spec (i : Nat) {tasks : List CalendarTask} (h : tasks ≠ []) :
    ∃ tk, getTaskForDay i tasks = .ok tk ∧ tasks.get? (i % tasks.length) = some tk := by
  cases tasks with
  | nil => exact absurd rfl h
  | cons t ts =>
    refine ⟨_, rfl, ?_⟩
    have hlt : i % (t :: ts).length < (t :: ts).length := Nat.mod_lt _ (by simp)
    rw [List.get?_eq_get hlt]
    rfl

theorem attachTasks_spec (tasks : List CalendarTask) (startDate today : JStr) (t0 : Int)
    (hT : tasks ≠ []) (hp : parseYMDLocal startDate = .ok t0) (ht0 : 0 ≤ t0) :
    ∀ (days : List CalendarDayR) (i : Nat),
      ∃ ds, attachTasks tasks startDate today i days = .ok ds ∧
        ds.length = days.length ∧
        ∀ j : Nat, ds.get? j = (days.get? j).map (fun day =>
          { day with
              hasTask := true
              isActive := isTodayStr today (ymdLocal (t0 + ((i + j : Nat) : Int)))
              task := tasks.get? ((i + j) % tasks.length) }) := by
  intro days
  induction days with
  | nil =>
    intro i
    exact ⟨[], rfl, rfl, fun j => rfl⟩
  | cons day rest ih =>
    intro i
    obtain ⟨tk, htk, htk2⟩ := getTaskForDay_spec i hT
    obtain ⟨ds, hds, hlen, hget⟩ := ih (i + 1)
    have htd := getTaskDateByMode_ok false (i : Int) startDate t0 hp
    rw [setDatePlus_eq t0 i ht0] at htd
    refine ⟨{ day with
              hasTask := true
              isActive := isTodayStr today (ymdLocal (t0 + (i : Int)))
              task := some tk } :: ds, ?_, ?_, ?_⟩
    · show attachTasks tasks startDate today i (day :: rest) = _
      simp only [attachTasks]
      rw [htk, htd, hds]
      rfl
    · simp [hlen]
    · intro j
      cases j with
      | zero =>
        rw [List.get?_cons_zero, List.get?_cons_zero, Option.map_some']
        simp only [Nat.add_zero]
        rw [htk2]
      | succ j =>
        show ds.get? j = (rest.get? j).map _
        rw [hget j]
        have hidx : i + 1 + j = i + (j + 1) := by omega
        rw [hidx]

theorem generateCalendarDays_spec (today : JStr) (tasks : List CalendarTask)
    (sD eD : JStr) (s e : Int)
    (hs : parseYMDLocal sD = .ok s) (he : parseYMDLocal eD = .ok e)
    (hT : tasks ≠ []) (hs0 : 0 ≤ s) :
    generateCalendarDays today false tasks sD eD =
      .ok (true,
        (if (tasks.length : Int) = e - s + 1 then []
         else [.mismatchWarning (e - s + 1) tasks.length]),
        (List.range (e - s + 1).toNat).map
          (fun i : Nat => mkCalendarDay today (s + (i : Int)) (1 + i))) := by
  unfold generateCalendarDays
  rw [validateTasksAndDays_fresh tasks sD eD s e hs he hT, hs, he]
  simp only [bind_ok_reduce]
  rw [genLoop_spec today _ s e 1 hs0 (le_refl _)]

theorem updateCalendarDays_spec (today : JStr) (tasks : List CalendarTask)
    (sD eD : JStr) (s e : Int)
    (hs : parseYMDLocal sD = .ok s) (he : parseYMDLocal eD = .ok e)
    (hT : tasks ≠ []) (hs0 : 0 ≤ s) :
    ∃ ds, updateCalendarDays today false tasks sD eD =
        .ok (true,
          (if (tasks.length : Int) = e - s + 1 then []
           else [.mismatchWarning (e - s + 1) tasks.length]), ds) ∧
      ds.length = (e - s + 1).toNat ∧
      ∀ j : Nat, ds.get? j =
        if j < (e - s + 1).toNat then
          some { id := j + 1
                 day := getDate (s + (j : Int))
                 date := ymdLocal (s + (j : Int))
                 isActive := isTodayStr today (ymdLocal (s + (j : Int)))
                 isSelected := false
                 isToday := isTodayStr today (ymdLocal (s + (j : Int)))
                 hasTask := true
                 task := tasks.get? (j % tasks.length) }
        else none := by
  obtain ⟨ds, hds, hlen, hget⟩ := attachTasks_spec tasks sD today s hT hs hs0
    ((List.range (e - s + 1).toNat).map
      (fun i : Nat => mkCalendarDay today (s + (i : Int)) (1 + i))) 0
  simp only [Nat.zero_add] at hget
  refine ⟨ds, ?_, ?_, ?_⟩
  · unfold updateCalendarDays
    rw [generateCalendarDays_spec today tasks sD eD s e hs he hT hs0]
    simp only [bind_ok_reduce]
    rw [hds]
    rfl
  · rw [hlen]
    simp
  · intro j
    rw [hget j, List.get?_map]
    by_cases hj : j < (e - s + 1).toNat
    · rw [List.get?_range hj, if_pos hj, Option.map_some', Option.map_some']
      simp only [mkCalendarDay]
      rw [Nat.add_comm 1 j]
    · rw [if_neg hj]
      have hnone : (List.range (e - s + 1).toNat).get? j = none := by
        rw [List.get?_eq_none, List.length_range]
        omega
      rw [hnone]
      rfl

/-- C4: `getDaysBetween` returns the inclusive day count: for valid
`YYYY-MM-DD` dates it equals the integer day-number difference plus one
(both dates being parsed to midnight), and in particular
`getDaysBetween d d = 1`; the mode-aware variant agrees. -/
theorem C4_daysBetween_inclusive (y1 m1 d1 y2 m2 d2 : Nat)
    (h1 : ValidYMD y1 m1 d1) (h2 : ValidYMD y2 m2 d2)
    (hy1 : 1000 ≤ y1) (hy2 : 1000 ≤ y2) :
    getDaysBetween (mkYMD y1 m1 d1) (mkYMD y2 m2 d2) =
      .ok ((dnOfCivil y2 m2 d2 : Int) - (dnOfCivil y1 m1 d1 : Int) + 1) ∧
    (∀ u : Bool, getDaysBetweenByMode u (mkYMD y1 m1 d1) (mkYMD y2 m2 d2) =
      .ok ((dnOfCivil y2 m2 d2 : Int) - (dnOfCivil y1 m1 d1 : Int) + 1)) ∧
    getDaysBetween (mkYMD y1 m1 d1) (mkYMD y1 m1 d1) = .ok 1 := by
  have p1 := parseYMDLocal_mkYMD_valid y1 m1 d1 h1 (by omega)
  have p2 := parseYMDLocal_mkYMD_valid y2 m2 d2 h2 (by omega)
  refine ⟨getDaysBetween_ok _ _ _ _ p1 p2,
    fun u => getDaysBetweenByMode_ok u _ _ _ _ p1 p2, ?_⟩
  rw [getDaysBetween_ok _ _ _ _ p1 p1]
  congr 1
  omega

theorem C4_witness :
    (ValidYMD 2025 1 1 ∧ ValidYMD 2025 1 3 ∧ 1000 ≤ 2025) ∧
    getDaysBetween (mkYMD 2025 1 1) (mkYMD 2025 1 3) = .ok 3 ∧
    getDaysBetween (mkYMD 2025 1 1) (mkYMD 2025 1 1) = .ok 1 := by
  have h := C4_daysBetween_inclusive 2025 1 1 2025 1 3
    (by decide) (by decide) (by decide) (by decide)
  exact ⟨⟨by decide, by decide, by decide⟩, h.1.trans (by decide), h.2.2⟩

/-- C5: `getTaskDate(i, startDate)` (and the mode-aware facade version)
returns the formatted date exactly `i` days after the parsed start date,
for every index `i ≥ 0` and valid start date. -/
theorem C5_taskDateForIndex (i : Nat) (y m d : Nat)
    (h : ValidYMD y m d) (hy : 1000 ≤ y) :
    getTaskDate (i : Int) (mkYMD y m d) =
      .ok (ymdLocal ((dnOfCivil y m d : Int) + i)) ∧
    ∀ u : Bool, getTaskDateByMode u (i : Int) (mkYMD y m d) =
      .ok (ymdLocal ((dnOfCivil y m d : Int) + i)) := by
  have p := parseYMDLocal_mkYMD_valid y m d h (by omega)
  have hset : setDatePlus ((dnOfCivil y m d : Nat) : Int) (i : Int) =
      (dnOfCivil y m d : Int) + i :=
    setDatePlus_eq _ _ (by omega)
  constructor
  · rw [getTaskDate_ok (i : Int) _ _ p, hset]
  · intro u
    rw [getTaskDateByMode_ok u (i : Int) _ _ p, hset]

theorem C5_witness :
    (ValidYMD 2025 12 1 ∧ 1000 ≤ 2025) ∧
    getTaskDate 0 (mkYMD 2025 12 1) = .ok (mkYMD 2025 12 1) ∧
    getTaskDate 5 (mkYMD 2025 12 1) = .ok (mkYMD 2025 12 6) := by
  have h0 := C5_taskDateForIndex 0 2025 12 1 (by decide) (by decide)
  have h5 := C5_taskDateForIndex 5 2025 12 1 (by decide) (by decide)
  exact ⟨⟨by decide, by decide⟩,
    (by simpa using h0.1 : getTaskDate 0 (mkYMD 2025 12 1) = _).trans (by decide),
    (by simpa using h5.1 : getTaskDate 5 (mkYMD 2025 12 1) = _).trans (by decide)⟩

/-- C6 counterexample: `"0525-01-02"` is a well-formed `\d{4}-\d{2}-\d{2}`
string denoting a real calendar date, its parse succeeds, but formatting the
result yields `"525-01-02"` (the year is not zero-padded by `ymdLocal`), so
`format(parse(s)) ≠ s`. -/
theorem C6_counterexample :
    ValidYMD 525 1 2 ∧
    parseYMDLocal ('0' :: mkYMD 525 1 2) = .ok ((dnOfCivil 525 1 2 : Nat) : Int) ∧
    ymdLocal ((dnOfCivil 525 1 2 : Nat) : Int) = mkYMD 525 1 2 ∧
    mkYMD 525 1 2 ≠ '0' :: mkYMD 525 1 2 := by
  refine ⟨by decide, by decide, by decide, by decide⟩

/-- C6 amended: the parse/format round-trip `format(parse(s)) = s` holds for
every valid `YYYY-MM-DD` string whose year lies in 1000..9999 (years whose
decimal form is exactly four digits; shorter years lose their leading zeros
because `ymdLocal` does not pad the year). -/
theorem C6_roundtrip (y m d : Nat) (h : ValidYMD y m d)
    (hy1 : 1000 ≤ y) (hy2 : y ≤ 9999) :
    ∃ t : Int, parseYMDLocal (mkYMD y m d) = .ok t ∧ ymdLocal t = mkYMD y m d :=
  ⟨_, parseYMDLocal_mkYMD_valid y m d h (by omega), ymdLocal_dnOfCivil y m d h⟩

theorem C6_witness :
    (ValidYMD 2025 12 24 ∧ 1000 ≤ 2025 ∧ 2025 ≤ 9999) ∧
    (∃ t : Int, parseYMDLocal (mkYMD 2025 12 24) = .ok t ∧
      ymdLocal t = mkYMD 2025 12 24) :=
  ⟨⟨by decide, by decide, by decide⟩,
    C6_roundtrip 2025 12 24 (by decide) (by decide) (by decide)⟩

theorem jsNumber_isSome_of_digits (g : JStr) (hd : ∀ ch ∈ g, ch.isDigit = true) :
    ∃ v, jsNumber g = some v := by
  cases g with
  | nil => exact ⟨0, rfl⟩
  | cons c tl =>
    refine ⟨((digitsVal (c :: tl) : Nat) : Int), ?_⟩
    unfold jsNumber
    rw [if_neg (by simp), if_pos (by simpa [List.all_eq_true] using hd)]

theorem mem_joinDash (L : List JStr) (g : JStr) (ch : Char)
    (hg : g ∈ L) (hch : ch ∈ g) : ch ∈ joinDash L := by
  induction L with
  | nil => simp at hg
  | cons a rest ih =>
    cases rest with
    | nil =>
      rcases List.mem_singleton.mp hg with rfl
      exact hch
    | cons b rest2 =>
      show ch ∈ a ++ '-' :: joinDash (b :: rest2)
      rcases List.mem_cons.mp hg with rfl | hg2
      · exact List.mem_append_left _ hch
      · exact List.mem_append_right _ (List.mem_cons_of_mem _ (ih hg2))

/-- C7 counterexample: `"2025-1-2"` does not match `\d{4}-\d{2}-\d{2}`, yet
the non-strict parser accepts it and silently constructs the date
2025-01-02 (no error is raised). -/
theorem C7_counterexample :
    shapeYMD ['2', '0', '2', '5', '-', '1', '-', '2'] = false ∧
    parseYMDLocal ['2', '0', '2', '5', '-', '1', '-', '2'] =
      .ok ((dnOfCivil 2025 1 2 : Nat) : Int) ∧
    ymdLocal ((dnOfCivil 2025 1 2 : Nat) : Int) = mkYMD 2025 1 2 :=
  ⟨by decide, by decide, by decide⟩

/-- C7 amended: over strings built from digits and `'-'`, the non-strict
parser succeeds exactly when the string splits on `'-'` into exactly three
components (each automatically numeric on this domain; the empty component
converts to 0); the `\d{4}-\d{2}-\d{2}` shape is not enforced. -/
theorem C7_parse_characterization (s : JStr)
    (hdom : ∀ c ∈ s, c.isDigit = true ∨ c = '-') :
    (∃ t, parseYMDLocal s = .ok t) ↔
      ∃ a b c : JStr, s = a ++ '-' :: (b ++ '-' :: c) ∧
        '-' ∉ a ∧ '-' ∉ b ∧ '-' ∉ c := by
  have hcomp : ∀ g ∈ splitDash s, ∀ ch ∈ g, ch.isDigit = true := by
    intro g hg ch hch
    have hmem : ch ∈ s := by
      have hj := mem_joinDash (splitDash s) g ch hg hch
      rwa [joinDash_splitDash s] at hj
    rcases hdom ch hmem with hd | he
    · exact hd
    · exact absurd (he ▸ hch) (splitDash_components_no_dash s g hg)
  constructor
  · rintro ⟨t, ht⟩
    unfold parseYMDLocal at ht
    rcases hL : splitDash s with _ | ⟨a, _ | ⟨b, _ | ⟨c, _ | ⟨d4, rest⟩⟩⟩⟩ <;>
      rw [hL] at ht
    · exact absurd hL (splitDash_ne_nil s)
    · obtain ⟨va, hva⟩ := jsNumber_isSome_of_digits a (hcomp a (by rw [hL]; simp))
      simp [hva] at ht
    · obtain ⟨va, hva⟩ := jsNumber_isSome_of_digits a (hcomp a (by rw [hL]; simp))
      obtain ⟨vb, hvb⟩ := jsNumber_isSome_of_digits b (hcomp b (by rw [hL]; simp))
      simp [hva, hvb] at ht
    · refine ⟨a, b, c, ?_, ?_, ?_, ?_⟩
      · have := (joinDash_splitDash s).symm
        rw [hL] at this
        exact this
      · exact splitDash_components_no_dash s a (by rw [hL]; simp)
      · exact splitDash_components_no_dash s b (by rw [hL]; simp)
      · exact splitDash_components_no_dash s c (by rw [hL]; simp)
    · obtain ⟨va, hva⟩ := jsNumber_isSome_of_digits a (hcomp a (by rw [hL]; simp))
      obtain ⟨vb, hvb⟩ := jsNumber_isSome_of_digits b (hcomp b (by rw [hL]; simp))
      obtain ⟨vc, hvc⟩ := jsNumber_isSome_of_digits c (hcomp c (by rw [hL]; simp))
      simp [hva, hvb, hvc] at ht
  · rintro ⟨a, b, c, rfl, hna, hnb, hnc⟩
    have hsp : splitDash (a ++ '-' :: (b ++ '-' :: c)) = [a, b, c] := by
      rw [splitDash_append _ _ hna, splitDash_append _ _ hnb, splitDash_no_dash _ hnc]
    obtain ⟨va, hva⟩ := jsNumber_isSome_of_digits a (hcomp a (by rw [hsp]; simp))
    obtain ⟨vb, hvb⟩ := jsNumber_isSome_of_digits b (hcomp b (by rw [hsp]; simp))
    obtain ⟨vc, hvc⟩ := jsNumber_isSome_of_digits c (hcomp c (by rw [hsp]; simp))
    refine ⟨jsNewDate va (vb - 1) vc, ?_⟩
    unfold parseYMDLocal
    rw [hsp]
    simp [hva, hvb, hvc]

theorem C7_witness :
    (∀ c ∈ (['2', '0', '2', '5', '-', '1', '-', '2'] : JStr),
        c.isDigit = true ∨ c = '-') ∧
    ((∃ t, parseYMDLocal ['2', '0', '2', '5', '-', '1', '-', '2'] = .ok t) ↔
      ∃ a b c : JStr, (['2', '0', '2', '5', '-', '1', '-', '2'] : JStr)
          = a ++ '-' :: (b ++ '-' :: c) ∧
        '-' ∉ a ∧ '-' ∉ b ∧ '-' ∉ c) :=
  ⟨by decide, C7_parse_characterization _ (by decide)⟩

theorem makeDay_nonneg (y m0 d : Int) (hd : 1 ≤ d) : 0 ≤ makeDay y m0 d := by
  simp only [makeDay]
  have h := Int.ofNat_nonneg (dnOfCivil (y + m0.fdiv 12).toNat ((m0.emod 12).toNat + 1) 1)
  omega

theorem civilOfDn_cast (t : Int) : civilOfDn t = civilOfDn ((t.toNat : Nat) : Int) := by
  unfold civilOfDn
  rw [Int.toNat_ofNat]

theorem getMonth_le_11 (t : Int) : getMonth t ≤ 11 := by
  unfold getMonth
  rw [civilOfDn_cast t]
  obtain ⟨_, hm2, _, _⟩ := (civilOfDn_correct t.toNat).2
  omega

/-- C8: the strict parser returns `none` for every well-formed
`\d{4}-\d{2}-\d{2}` input (4-digit year, 2-digit month/day fields) that is
not a real calendar date — in particular for calendar-overflow inputs such
as `"2025-11-31"` — and returns exactly the constructed date for every
well-formed input that is a real calendar date (whose constructed fields
therefore match the input). -/
theorem C8_parseStrict (y m d : Nat) (hy1 : 1000 ≤ y) (hy2 : y ≤ 9999)
    (hm99 : m ≤ 99) (hd99 : d ≤ 99) :
    (¬ ValidYMD y m d → parseYMDStrict (mkYMD y m d) = none) ∧
    (ValidYMD y m d → parseYMDStrict (mkYMD y m d) = some ((dnOfCivil y m d : Nat) : Int)) := by
  have hsplit : (splitDash (mkYMD y m d)).map jsNumber
      = [some (y : Int), some (m : Int), some (d : Int)] := by
    unfold mkYMD
    rw [splitDash_append _ _ (natDigits_no_dash y), splitDash_append _ _ (pad2_no_dash m),
      splitDash_no_dash _ (pad2_no_dash d)]
    simp only [List.map_cons, List.map_nil, jsNumber_natDigits, jsNumber_pad2]
  have hstrict : parseYMDStrict (mkYMD y m d) =
      (if (y : Int) = 0 ∨ (m : Int) = 0 ∨ (d : Int) = 0 then none
       else if ((getFullYear (jsNewDate (y : Int) ((m : Int) - 1) (d : Int)) : Int) = (y : Int) ∧
            (getMonth (jsNewDate (y : Int) ((m : Int) - 1) (d : Int)) : Int) = (m : Int) - 1 ∧
            (getDate (jsNewDate (y : Int) ((m : Int) - 1) (d : Int)) : Int) = (d : Int))
         then some (jsNewDate (y : Int) ((m : Int) - 1) (d : Int)) else none) := by
    unfold parseYMDStrict
    rw [hsplit]
  by_cases hm0 : m = 0
  · refine ⟨fun _ => ?_, fun hv => absurd hv.1 (by omega)⟩
    rw [hstrict, if_pos (by omega)]
  · by_cases hd0 : d = 0
    · refine ⟨fun _ => ?_, fun hv => absurd hv.2.2.1 (by omega)⟩
      rw [hstrict, if_pos (by omega)]
    · by_cases hm12 : m ≤ 12
      · have hdate : jsNewDate (y : Int) ((m : Int) - 1) (d : Int)
            = ((dnOfCivil y m d : Nat) : Int) := by
          rw [jsNewDate_eq y m _ (by omega) (by omega) hm12]
          have := dnOfCivil_day y m d (by omega)
          omega
        by_cases hval : d ≤ daysInMonth y m
        · have hvld : ValidYMD y m d := ⟨by omega, hm12, by omega, hval⟩
          refine ⟨fun hinv => absurd hvld hinv, fun _ => ?_⟩
          rw [hstrict, if_neg (by omega), hdate,
            getFullYear_dn y m d hvld, getMonth_dn y m d hvld, getDate_dn y m d hvld]
          rw [if_pos ⟨rfl, by omega, rfl⟩]
        · refine ⟨fun _ => ?_, fun hv => absurd hv.2.2.2 hval⟩
          rw [hstrict, if_neg (by omega), hdate]
          apply if_neg
          rintro ⟨hf1, hf2, hf3⟩
          obtain ⟨hdn, hvalid⟩ := civilOfDn_correct (dnOfCivil y m d)
          obtain ⟨Y, M, D, hc⟩ :
              ∃ a b c2, civilOfDn ((dnOfCivil y m d : Nat) : Int) = (a, b, c2) :=
            ⟨_, _, _, rfl⟩
          rw [hc] at hdn hvalid
          dsimp only at hdn hvalid
          obtain ⟨hM1, hM2, hD1, hD2⟩ := hvalid
          unfold getFullYear at hf1
          unfold getMonth at hf2
          unfold getDate at hf3
          rw [hc] at hf1 hf2 hf3
          dsimp only at hf1 hf2 hf3
          have hY : Y = y := by omega
          have hM : M = m := by omega
          have hD : D = d := by omega
          rw [hY, hM, hD] at hD2
          omega
      · refine ⟨fun _ => ?_, fun hv => absurd hv.2.1 hm12⟩
        rw [hstrict, if_neg (by omega)]
        apply if_neg
        rintro ⟨_, hf2, _⟩
        have hle := getMonth_le_11 (jsNewDate (y : Int) ((m : Int) - 1) (d : Int))
        omega

theorem C8_witness :
    (1000 ≤ 2025 ∧ 2025 ≤ 9999 ∧ 11 ≤ 99 ∧ 31 ≤ 99 ∧ ¬ ValidYMD 2025 11 31) ∧
    parseYMDStrict (mkYMD 2025 11 31) = none ∧
    (ValidYMD 2025 11 30 →
      parseYMDStrict (mkYMD 2025 11 30) = some ((dnOfCivil 2025 11 30 : Nat) : Int)) := by
  have h31 := C8_parseStrict 2025 11 31 (by decide) (by decide) (by decide) (by decide)
  have h30 := C8_parseStrict 2025 11 30 (by decide) (by decide) (by decide) (by decide)
  exact ⟨⟨by decide, by decide, by decide, by decide, by decide⟩,
    h31.1 (by decide), h30.2⟩

theorem daysInMonth_twelve (y : Nat) : daysInMonth y 12 = 31 := by
  simp [daysInMonth]

/-- Reading the length of a month off the `new Date(year, monthIndex + 1, 0)`
rollover agrees with the calendar's month length. -/
theorem monthLength_rollover (y mi : Nat) (hy : 100 ≤ y) (hmi : mi ≤ 11) :
    getDate (jsNewDate (y : Int) ((mi : Int) + 1) 0) = daysInMonth y (mi + 1) := by
  have hdim1 : 1 ≤ daysInMonth y (mi + 1) := daysInMonth_pos y (mi + 1) (by omega) (by omega)
  by_cases hcase : mi ≤ 10
  · have harg : ((mi : Int) + 1) = ((mi + 2 : Nat) : Int) - 1 := by push_cast; ring
    rw [harg, jsNewDate_eq y (mi + 2) 0 hy (by omega) (by omega)]
    have hup : monthsUpto y (mi + 1) = monthsUpto y mi + daysInMonth y (mi + 1) := by
      have h := monthsUpto_succ y (mi + 1) (by omega)
      simpa using h
    have hrel : (dnOfCivil y (mi + 2) 1 : Int) + 0 - 1
        = ((dnOfCivil y (mi + 1) (daysInMonth y (mi + 1)) : Nat) : Int) := by
      unfold dnOfCivil
      have h1 : (mi + 2) - 1 = mi + 1 := by omega
      have h2 : (mi + 1) - 1 = mi := by omega
      rw [h1, h2]
      omega
    rw [hrel, getDate_dn y (mi + 1) (daysInMonth y (mi + 1))
      ⟨by omega, by omega, hdim1, le_refl _⟩]
  · have h11 : mi = 11 := by omega
    subst h11
    unfold jsNewDate
    rw [if_neg (by omega)]
    have harg : (((11 : Nat) : Int) + 1) = 12 := by norm_num
    rw [harg]
    have hfd : Int.fdiv 12 12 = 1 := by decide
    have hem : Int.emod 12 12 = 0 := by decide
    simp only [makeDay, hfd, hem]
    rw [show ((y : Int) + 1).toNat = y + 1 by omega]
    have h12 : monthsUpto y 12 = monthsUpto y 11 + 31 := by
      show monthsUpto y (11 + 1) = monthsUpto y 11 + 31
      rw [monthsUpto, daysInMonth_twelve]
    have hrel : (dnOfCivil (y + 1) 1 1 : Int) + 0 - 1
        = ((dnOfCivil y 12 31 : Nat) : Int) := by
      unfold dnOfCivil
      have hdy := daysToYear_succ y
      have htwelve := monthsUpto_twelve y
      simp only [Nat.sub_self, Nat.sub_zero]
      have h121 : (12 : Nat) - 1 = 11 := by norm_num
      rw [h121]
      have hm0 : monthsUpto (y + 1) 0 = 0 := rfl
      omega
    simp only [Int.toNat_zero, Nat.zero_add]
    rw [hrel, getDate_dn y 12 31
      ⟨by omega, by omega, by omega, by rw [daysInMonth_twelve]⟩, daysInMonth_twelve]

/-- C9: the grid builder emits exactly
`offset = (weekday(first) - firstDayOfWeek + 7) % 7` leading placeholder
cells — cells that carry no date and no day number — followed by one real
day cell per day of the month, in ascending order, each carrying its
`YYYY-MM-DD` date string. -/
theorem C9_buildMonthDays (year monthIndex fdow : Nat)
    (hy1 : 1000 ≤ year) (hy2 : year ≤ 9999) (hmi : monthIndex ≤ 11) (hf : fdow ≤ 1) :
    buildMonthDays year monthIndex fdow =
      ((List.range ((getDay (jsNewDate (year : Int) (monthIndex : Int) 1) + 7 - fdow) % 7)).map
        fun i => MonthCell.placeholder (phId year monthIndex i)) ++
      ((List.range (daysInMonth year (monthIndex + 1))).map
        fun k => MonthCell.realDay (mkYMD year (monthIndex + 1) (k + 1)) (k + 1)
          (mkYMD year (monthIndex + 1) (k + 1))) := by
  simp only [buildMonthDays]
  rw [monthLength_rollover year monthIndex (by omega) hmi]
  rfl

theorem C9_witness :
    (1000 ≤ 2025 ∧ 2025 ≤ 9999 ∧ 9 ≤ 11 ∧ 1 ≤ 1) ∧
    buildMonthDays 2025 9 1 =
      ((List.range ((getDay (jsNewDate (2025 : Int) (9 : Int) 1) + 7 - 1) % 7)).map
        fun i => MonthCell.placeholder (phId 2025 9 i)) ++
      ((List.range (daysInMonth 2025 10)).map
        fun k => MonthCell.realDay (mkYMD 2025 10 (k + 1)) (k + 1)
          (mkYMD 2025 10 (k + 1))) ∧
    getDay (jsNewDate (2025 : Int) (9 : Int) 1) = 3 ∧
    (getDay (jsNewDate (2025 : Int) (9 : Int) 1) + 7 - 1) % 7 = 2 :=
  ⟨⟨by decide, by decide, by decide, by decide⟩,
    C9_buildMonthDays 2025 9 1 (by decide) (by decide) (by decide) (by decide),
    by decide, by decide⟩

/-- C1: for every configuration with valid `YYYY-MM-DD` start/end dates,
`startDate ≤ endDate` and a non-empty task list, the generator (on a fresh
session) produces exactly one `CalendarDay` record per calendar date from
start to end inclusive, in ascending date order (record `j` carries the date
`start + j` days), with sequential ids starting at 1, `hasTask = true`, and
the task of position `j mod taskCount` attached; with exactly as many tasks
as days the tasks appear in their original order and no warning is
emitted. -/
theorem C1_generator_one_record_per_date (today : JStr) (tasks : List CalendarTask)
    (y1 m1 d1 y2 m2 d2 : Nat)
    (h1 : ValidYMD y1 m1 d1) (h2 : ValidYMD y2 m2 d2)
    (hy1a : 1000 ≤ y1) (hy1b : y1 ≤ 9999) (hy2a : 1000 ≤ y2) (hy2b : y2 ≤ 9999)
    (hT : tasks ≠ [])
    (hle : dnOfCivil y1 m1 d1 ≤ dnOfCivil y2 m2 d2) :
    ∃ ws ds,
      updateCalendarDays today false tasks (mkYMD y1 m1 d1) (mkYMD y2 m2 d2) =
        .ok (true, ws, ds) ∧
      ds.length = dnOfCivil y2 m2 d2 - dnOfCivil y1 m1 d1 + 1 ∧
      (∀ j : Nat, j < ds.length →
        ∃ rec, ds.get? j = some rec ∧
          rec.id = j + 1 ∧
          rec.date = ymdLocal ((dnOfCivil y1 m1 d1 + j : Nat) : Int) ∧
          rec.hasTask = true ∧
          rec.task = tasks.get? (j % tasks.length)) ∧
      (tasks.length = dnOfCivil y2 m2 d2 - dnOfCivil y1 m1 d1 + 1 →
        ws = [] ∧
        ∀ j : Nat, j < ds.length →
          ∃ rec, ds.get? j = some rec ∧ rec.task = tasks.get? j) := by
  have p1 := parseYMDLocal_mkYMD_valid y1 m1 d1 h1 (by omega)
  have p2 := parseYMDLocal_mkYMD_valid y2 m2 d2 h2 (by omega)
  obtain ⟨ds, hds, hlen, hget⟩ := updateCalendarDays_spec today tasks
    (mkYMD y1 m1 d1) (mkYMD y2 m2 d2)
    ((dnOfCivil y1 m1 d1 : Nat) : Int) ((dnOfCivil y2 m2 d2 : Nat) : Int)
    p1 p2 hT (by omega)
  have hcount : (((dnOfCivil y2 m2 d2 : Nat) : Int) - ((dnOfCivil y1 m1 d1 : Nat) : Int) + 1).toNat
      = dnOfCivil y2 m2 d2 - dnOfCivil y1 m1 d1 + 1 := by omega
  refine ⟨_, ds, hds, by rw [hlen, hcount], ?_, ?_⟩
  · intro j hj
    have hjlt : j < (((dnOfCivil y2 m2 d2 : Nat) : Int) - ((dnOfCivil y1 m1 d1 : Nat) : Int) + 1).toNat := by
      rw [hcount]
      rw [hlen, hcount] at hj
      exact hj
    refine ⟨_, (hget j).trans (if_pos hjlt), rfl, ?_, rfl, rfl⟩
    show ymdLocal (((dnOfCivil y1 m1 d1 : Nat) : Int) + (j : Int)) = _
    rw [show ((dnOfCivil y1 m1 d1 : Nat) : Int) + (j : Int)
        = ((dnOfCivil y1 m1 d1 + j : Nat) : Int) by omega]
  · intro hcnt
    constructor
    · have : (tasks.length : Int) = ((dnOfCivil y2 m2 d2 : Nat) : Int)
          - ((dnOfCivil y1 m1 d1 : Nat) : Int) + 1 := by omega
      rw [if_pos this]
    · intro j hj
      have hjlt : j < (((dnOfCivil y2 m2 d2 : Nat) : Int) - ((dnOfCivil y1 m1 d1 : Nat) : Int) + 1).toNat := by
        rw [hcount]
        rw [hlen, hcount] at hj
        exact hj
      refine ⟨_, (hget j).trans (if_pos hjlt), ?_⟩
      show tasks.get? (j % tasks.length) = tasks.get? j
      congr 1
      rw [hlen, hcount] at hj
      exact Nat.mod_eq_of_lt (by omega)

theorem C1_witness :
    (ValidYMD 2025 12 1 ∧ ValidYMD 2025 12 24 ∧
      (List.range 24 : List CalendarTask) ≠ [] ∧
      dnOfCivil 2025 12 1 ≤ dnOfCivil 2025 12 24 ∧
      dnOfCivil 2025 12 24 - dnOfCivil 2025 12 1 + 1 = 24 ∧
      (List.range 24).length = 24) ∧
    (∃ ws ds,
      updateCalendarDays [] false (List.range 24) (mkYMD 2025 12 1) (mkYMD 2025 12 24) =
        .ok (true, ws, ds) ∧
      ds.length = dnOfCivil 2025 12 24 - dnOfCivil 2025 12 1 + 1 ∧
      (∀ j : Nat, j < ds.length →
        ∃ rec, ds.get? j = some rec ∧
          rec.id = j + 1 ∧
          rec.date = ymdLocal ((dnOfCivil 2025 12 1 + j : Nat) : Int) ∧
          rec.hasTask = true ∧
          rec.task = (List.range 24).get? (j % (List.range 24).length)) ∧
      ((List.range 24).length = dnOfCivil 2025 12 24 - dnOfCivil 2025 12 1 + 1 →
        ws = [] ∧
        ∀ j : Nat, j < ds.length →
          ∃ rec, ds.get? j = some rec ∧ rec.task = (List.range 24).get? j)) :=
  ⟨⟨by decide, by decide, by decide, by decide, by decide, by decide⟩,
    C1_generator_one_record_per_date [] (List.range 24) 2025 12 1 2025 12 24
      (by decide) (by decide) (by decide) (by decide) (by decide) (by decide)
      (by decide) (by decide)⟩

/-- C2: the task attached to the day at zero-based position `j` is
`tasks[j mod taskCount]` (cyclic wraparound); with more tasks than days each
day `j` simply uses task `j` and the trailing tasks are never reached, with
no error; and whenever the counts differ exactly one mismatch warning is
emitted. -/
theorem C2_cyclic_task_assignment (today : JStr) (tasks : List CalendarTask)
    (y1 m1 d1 y2 m2 d2 : Nat)
    (h1 : ValidYMD y1 m1 d1) (h2 : ValidYMD y2 m2 d2)
    (hy1a : 1000 ≤ y1) (hy1b : y1 ≤ 9999) (hy2a : 1000 ≤ y2) (hy2b : y2 ≤ 9999)
    (hT : tasks ≠ [])
    (hle : dnOfCivil y1 m1 d1 ≤ dnOfCivil y2 m2 d2) :
    ∃ ws ds,
      updateCalendarDays today false tasks (mkYMD y1 m1 d1) (mkYMD y2 m2 d2) =
        .ok (true, ws, ds) ∧
      (∀ j : Nat, j < ds.length →
        ∃ rec, ds.get? j = some rec ∧ rec.task = tasks.get? (j % tasks.length)) ∧
      (ds.length < tasks.length →
        ∀ j : Nat, j < ds.length →
          ∃ rec, ds.get? j = some rec ∧ rec.task = tasks.get? j ∧ j < tasks.length) ∧
      ((tasks.length : Int) ≠ (dnOfCivil y2 m2 d2 : Int) - (dnOfCivil y1 m1 d1 : Int) + 1 →
        ws = [Diag.mismatchWarning
          ((dnOfCivil y2 m2 d2 : Int) - (dnOfCivil y1 m1 d1 : Int) + 1) tasks.length]) := by
  have p1 := parseYMDLocal_mkYMD_valid y1 m1 d1 h1 (by omega)
  have p2 := parseYMDLocal_mkYMD_valid y2 m2 d2 h2 (by omega)
  obtain ⟨ds, hds, hlen, hget⟩ := updateCalendarDays_spec today tasks
    (mkYMD y1 m1 d1) (mkYMD y2 m2 d2)
    ((dnOfCivil y1 m1 d1 : Nat) : Int) ((dnOfCivil y2 m2 d2 : Nat) : Int)
    p1 p2 hT (by omega)
  refine ⟨_, ds, hds, ?_, ?_, ?_⟩
  · intro j hj
    rw [hlen] at hj
    exact ⟨_, (hget j).trans (if_pos hj), rfl⟩
  · intro hmore j hj
    rw [hlen] at hj hmore
    refine ⟨_, (hget j).trans (if_pos hj), ?_, by omega⟩
    show tasks.get? (j % tasks.length) = tasks.get? j
    congr 1
    exact Nat.mod_eq_of_lt (by omega)
  · intro hne
    have hne2 : (tasks.length : Int) ≠ ((dnOfCivil y2 m2 d2 : Nat) : Int)
        - ((dnOfCivil y1 m1 d1 : Nat) : Int) + 1 := by
      intro he
      exact hne (by omega)
    rw [if_neg hne2]

theorem C2_witness :
    (ValidYMD 2025 12 1 ∧ ValidYMD 2025 12 24 ∧
      (List.range 20 : List CalendarTask) ≠ [] ∧
      dnOfCivil 2025 12 1 ≤ dnOfCivil 2025 12 24 ∧
      ((List.range 20).length : Int) ≠
        (dnOfCivil 2025 12 24 : Int) - (dnOfCivil 2025 12 1 : Int) + 1 ∧
      20 % 20 = 0 ∧ 21 % 20 = 1) ∧
    (∃ ws ds,
      updateCalendarDays [] false (List.range 20) (mkYMD 2025 12 1) (mkYMD 2025 12 24) =
        .ok (true, ws, ds) ∧
      (∀ j : Nat, j < ds.length →
        ∃ rec, ds.get? j = some rec ∧
          rec.task = (List.range 20).get? (j % (List.range 20).length)) ∧
      (ds.length < (List.range 20).length →
        ∀ j : Nat, j < ds.length →
          ∃ rec, ds.get? j = some rec ∧ rec.task = (List.range 20).get? j ∧
            j < (List.range 20).length) ∧
      (((List.range 20).length : Int) ≠
          (dnOfCivil 2025 12 24 : Int) - (dnOfCivil 2025 12 1 : Int) + 1 →
        ws = [Diag.mismatchWarning
          ((dnOfCivil 2025 12 24 : Int) - (dnOfCivil 2025 12 1 : Int) + 1)
          (List.range 20).length])) :=
  ⟨⟨by decide, by decide, by decide, by decide, by decide, by decide, by decide⟩,
    C2_cyclic_task_assignment [] (List.range 20) 2025 12 1 2025 12 24
      (by decide) (by decide) (by decide) (by decide) (by decide) (by decide)
      (by decide) (by decide)⟩

/-- C3 counterexample: with `startDate > endDate` (and a non-empty task
list, on a fresh session) the generator does **not** fail: it returns an
empty day list together with a mismatch warning, contradicting the claim
that `startDate > endDate` is fatal. -/
theorem C3_counterexample :
    generateCalendarDays [] false [0] (mkYMD 2025 12 2) (mkYMD 2025 12 1) =
      .ok (true, [Diag.mismatchWarning 0 1], []) := by decide

/-- C3 amended: an empty task list is fatal — generation throws the
zero-tasks error and produces no day list — but `startDate > endDate` is
not: generation succeeds with a mismatch warning and an empty day list. -/
theorem C3_empty_tasks_fatal (today : JStr) (tasks : List CalendarTask)
    (y1 m1 d1 y2 m2 d2 : Nat)
    (h1 : ValidYMD y1 m1 d1) (h2 : ValidYMD y2 m2 d2)
    (hy1a : 1000 ≤ y1) (hy1b : y1 ≤ 9999) (hy2a : 1000 ≤ y2) (hy2b : y2 ≤ 9999) :
    generateCalendarDays today false [] (mkYMD y1 m1 d1) (mkYMD y2 m2 d2) =
      .error JSError.noTasks ∧
    (dnOfCivil y2 m2 d2 < dnOfCivil y1 m1 d1 → tasks ≠ [] →
      generateCalendarDays today false tasks (mkYMD y1 m1 d1) (mkYMD y2 m2 d2) =
        .ok (true,
          [Diag.mismatchWarning
            ((dnOfCivil y2 m2 d2 : Int) - (dnOfCivil y1 m1 d1 : Int) + 1) tasks.length],
          [])) := by
  have p1 := parseYMDLocal_mkYMD_valid y1 m1 d1 h1 (by omega)
  have p2 := parseYMDLocal_mkYMD_valid y2 m2 d2 h2 (by omega)
  constructor
  · unfold generateCalendarDays
    rw [validateTasksAndDays_empty _ _ _ _ p1 p2]
    rfl
  · intro hlt hT
    rw [generateCalendarDays_spec today tasks _ _ _ _ p1 p2 hT (by omega)]
    have hz : (((dnOfCivil y2 m2 d2 : Nat) : Int) - ((dnOfCivil y1 m1 d1 : Nat) : Int) + 1).toNat = 0 := by
      omega
    rw [hz]
    have hne : ((tasks.length : Int)) ≠ ((dnOfCivil y2 m2 d2 : Nat) : Int)
        - ((dnOfCivil y1 m1 d1 : Nat) : Int) + 1 := by
      have : 1 ≤ tasks.length := List.length_pos.mpr hT
      omega
    rw [if_neg hne]
    rfl

theorem C3_witness :
    (ValidYMD 2025 12 2 ∧ ValidYMD 2025 12 1 ∧
      dnOfCivil 2025 12 1 < dnOfCivil 2025 12 2 ∧ ([0] : List CalendarTask) ≠ []) ∧
    (generateCalendarDays [] false [] (mkYMD 2025 12 2) (mkYMD 2025 12 1) =
      .error JSError.noTasks ∧
    (dnOfCivil 2025 12 1 < dnOfCivil 2025 12 2 → ([0] : List CalendarTask) ≠ [] →
      generateCalendarDays [] false [0] (mkYMD 2025 12 2) (mkYMD 2025 12 1) =
        .ok (true,
          [Diag.mismatchWarning
            ((dnOfCivil 2025 12 1 : Int) - (dnOfCivil 2025 12 2 : Int) + 1) ([0] : List CalendarTask).length],
          []))) :=
  ⟨⟨by decide, by decide, by decide, by decide⟩,
    C3_empty_tasks_fatal [] [0] 2025 12 2 2025 12 1
      (by decide) (by decide) (by decide) (by decide) (by decide) (by decide)⟩

/-- C10: the public by-date lookup applies no cyclic wraparound: it returns
a task exactly for dates from `startDate` up to `startDate + taskCount - 1`
days (the task at the day-offset position), and `undefined` for any earlier
date or any date at least `taskCount` days after the start — regardless of
the configured end date, which the function never consults. -/
theorem C10_getTaskForDate_no_wrap (tasks : List CalendarTask)
    (ys ms dds yt mt dt : Nat)
    (hs : ValidYMD ys ms dds) (ht : ValidYMD yt mt dt)
    (hys1 : 1000 ≤ ys) (hys2 : ys ≤ 9999) (hyt1 : 1000 ≤ yt) (hyt2 : yt ≤ 9999) :
    (dnOfCivil ys ms dds ≤ dnOfCivil yt mt dt ∧
        dnOfCivil yt mt dt < dnOfCivil ys ms dds + tasks.length →
      getTaskForDate (mkYMD yt mt dt) tasks (mkYMD ys ms dds) =
        .ok (tasks.get? (dnOfCivil yt mt dt - dnOfCivil ys ms dds)) ∧
      ∃ tk, tasks.get? (dnOfCivil yt mt dt - dnOfCivil ys ms dds) = some tk) ∧
    (dnOfCivil yt mt dt < dnOfCivil ys ms dds ∨
        dnOfCivil ys ms dds + tasks.length ≤ dnOfCivil yt mt dt →
      getTaskForDate (mkYMD yt mt dt) tasks (mkYMD ys ms dds) = .ok none) := by
  have ps := parseYMDLocal_mkYMD_valid ys ms dds hs (by omega)
  have pt := parseYMDLocal_mkYMD_valid yt mt dt ht (by omega)
  have hfun : getTaskForDate (mkYMD yt mt dt) tasks (mkYMD ys ms dds) =
      (if 0 ≤ (((dnOfCivil yt mt dt : Nat) : Int) - ((dnOfCivil ys ms dds : Nat) : Int)) ∧
          (((dnOfCivil yt mt dt : Nat) : Int) - ((dnOfCivil ys ms dds : Nat) : Int)) < (tasks.length : Int)
        then .ok (tasks.get? ((((dnOfCivil yt mt dt : Nat) : Int) - ((dnOfCivil ys ms dds : Nat) : Int)).toNat))
        else .ok none) := by
    unfold getTaskForDate
    rw [ps, pt]
    simp only [bind_ok_reduce]
    rw [fdiv_mul_cancel]
  constructor
  · rintro ⟨hge, hlt⟩
    constructor
    · rw [hfun, if_pos (by constructor <;> omega)]
      congr 1
      congr 1
      omega
    · have hidx : dnOfCivil yt mt dt - dnOfCivil ys ms dds < tasks.length := by omega
      exact ⟨_, List.get?_eq_get hidx⟩
  · intro hout
    rw [hfun, if_neg ?_]
    rintro ⟨hge, hlt⟩
    omega

theorem C10_witness :
    (ValidYMD 2025 12 1 ∧ ValidYMD 2025 12 3 ∧ ValidYMD 2025 12 5 ∧
      (dnOfCivil 2025 12 1 ≤ dnOfCivil 2025 12 3 ∧
        dnOfCivil 2025 12 3 < dnOfCivil 2025 12 1 + (List.range 3).length) ∧
      (dnOfCivil 2025 12 1 + (List.range 3).length ≤ dnOfCivil 2025 12 5)) ∧
    getTaskForDate (mkYMD 2025 12 3) (List.range 3) (mkYMD 2025 12 1) =
      .ok ((List.range 3).get? (dnOfCivil 2025 12 3 - dnOfCivil 2025 12 1)) ∧
    getTaskForDate (mkYMD 2025 12 5) (List.range 3) (mkYMD 2025 12 1) = .ok none := by
  have h3 := C10_getTaskForDate_no_wrap (List.range 3) 2025 12 1 2025 12 3
    (by decide) (by decide) (by decide) (by decide) (by decide) (by decide)
  have h5 := C10_getTaskForDate_no_wrap (List.range 3) 2025 12 1 2025 12 5
    (by decide) (by decide) (by decide) (by decide) (by decide) (by decide)
  exact ⟨⟨by decide, by decide, by decide, ⟨by decide, by decide⟩, by decide⟩,
    (h3.1 ⟨by decide, by decide⟩).1, h5.2 (Or.inr (by decide))⟩

end AdventCalendar

